import Mathlib

/-!
Verification of the LOSER_v1 audit system (collector `main.py`, agent
`ic_audit/machine.py`, diagnostics `ic_audit/net_doc.py`) against its
natural-language specification.  The Python code is shallowly embedded:
dynamically-typed JSON-ish values become the inductive `JVal`, Python dicts
become insertion-ordered association lists, exceptions become `Except`,
and the filesystem touched by the persistence layer becomes an explicit
record of the relevant paths.
-/

/-- Model of a Python/JSON value as stored in an audit trail.  Scalars are
modelled exactly; nested containers (arrays/objects), which no verified claim
inspects, are abstracted as opaque distinguishable values `other i`. -/
inductive JVal where
  | s (v : String)
  | n (v : ℚ)
  | b (v : Bool)
  | nullv
  | other (i : ℕ)
deriving DecidableEq, Repr

/-- An audit trail (one stored event): a Python dict with string keys,
modelled as an insertion-ordered association list with unique keys. -/
abbrev Trail := List (String × JVal)

/-- Python `d[k]` lookup on an association list: first binding wins
(keys are unique in a dict, so this is exact). -/
def assocLookup {κ α : Type} [DecidableEq κ] (l : List (κ × α)) (k : κ) : Option α :=
  match l with
  | [] => none
  | (k₀, v₀) :: t => if k₀ = k then some v₀ else assocLookup t k

/-- Python `d[k] = v` on an association list: update in place if the key is
present (dicts keep the original insertion position), else append at the end
(dicts are insertion-ordered). -/
def assocSet {κ α : Type} [DecidableEq κ] (l : List (κ × α)) (k : κ) (v : α) :
    List (κ × α) :=
  match l with
  | [] => [(k, v)]
  | (k₀, v₀) :: t => if k₀ = k then (k₀, v) :: t else (k₀, v₀) :: assocSet t k v

/-- In-memory state of the collector: the stored trail list and the managed
host registry (`AuditServer._full_audit_trails`, `AuditServer._hosts`). -/
structure Store where
  trails : List Trail
  hosts : List String
deriving DecidableEq, Repr

/-! ## Machine Agent heartbeat (`AuditableMachine._update_last_alive_msg`) -/

/-- Python exceptions arising in the embedded fragments. -/
inductive PyErr where
  | keyError (k : String)
  | attributeError
  | typeError
  | indexError
deriving DecidableEq, Repr

/-- Dynamic type of `self.data['last_alive']` on the agent: the key may be
missing, hold a list of timestamps, or — after the buggy eviction assignment
`self.data['last_alive'] = self.data['last_alive'].pop(0)` — hold a single
float. -/
inductive AliveField where
  | absent
  | lst (ts : List ℚ)
  | scalar (t : ℚ)
deriving DecidableEq, Repr

/-- The fixed cap on the liveness window (`172_800` in the source). -/
def lastAliveCap : ℕ := 172800

/-- One iteration of the loop body of `_update_last_alive_msg`
(machine.py lines 107-114), without the sleep and the cache write:
append `time.time()` (initialising the list on `KeyError`), then, if the
length exceeds the cap, execute
`self.data['last_alive'] = self.data['last_alive'].pop(0)` — which in Python
removes and RETURNS the first (oldest) element, so the attribute becomes that
single float.  A later iteration then calls `.append` on a float, raising an
uncaught `AttributeError` (only `KeyError` is caught). -/
def update_last_alive_step (now : ℚ) (a : AliveField) : Except PyErr AliveField :=
  match a with
  | .scalar _ => .error .attributeError
  | .absent =>
      let ts1 := [now]
      if ts1.length > lastAliveCap then .ok (.scalar ts1.headI) else .ok (.lst ts1)
  | .lst ts =>
      let ts1 := ts ++ [now]
      if ts1.length > lastAliveCap then .ok (.scalar ts1.headI) else .ok (.lst ts1)

/-! ## Durable Store persistence (`AuditServer.save_audit_trails` /
`AuditServer.load_audit_trails`) -/

/-- Shape of an unpickled snapshot: current `{trails, hosts}` dict (whose keys
may individually be missing, read back with `.get(key, [])`), a legacy bare
list of trails, or anything else. -/
inductive Snapshot where
  | payload (trailsField : Option (List Trail)) (hostsField : Option (List String))
  | legacyList (trails : List Trail)
  | otherData
deriving DecidableEq, Repr

/-- File content as seen by `pickle.load`: either it deserializes to a
snapshot or it raises `UnpicklingError`/`EOFError`. -/
inductive FileContent where
  | data (snap : Snapshot)
  | corrupt
deriving DecidableEq, Repr

/-- The slice of the filesystem touched by the persistence code, plus the
operator-visible print log. `saved` records files renamed aside, newest
first, by full name. -/
structure FS where
  canonical : Option FileContent
  tmp : Option FileContent
  saved : List (String × FileContent)
  log : List String
deriving DecidableEq, Repr

/-- The canonical snapshot path (`~/.cellar/loser_audit.pickle`). -/
def pickleLocation : String := "~/.cellar/loser_audit.pickle"

/-- Name given to a corrupt canonical file, from main.py line 86:
`pickle_location + '_{}.corrupt'.format(int(time.time()))`. -/
def corruptFileName (now : ℕ) : String :=
  pickleLocation ++ "_" ++ toString now ++ ".corrupt"

/-- `AuditServer.save_audit_trails` (main.py lines 104-120): serialize
`{trails, hosts}` to the `.tmp` file, then atomically rename it over the
canonical file. -/
def save_audit_trails (st : Store) (fs : FS) : FS :=
  let written : FS :=
    { fs with tmp := some (.data (.payload (some st.trails) (some st.hosts))) }
  { written with
      canonical := written.tmp
      tmp := none
      log := written.log ++ ["Audit trails and hosts saved to " ++ pickleLocation] }

/-- How `load_audit_trails` interprets a successfully unpickled snapshot
(main.py lines 52-62): a bare list is legacy trails with no hosts; a dict is
read with `.get('trails', [])` / `.get('hosts', [])`; anything else is empty. -/
def interpSnapshot : Snapshot → List Trail × List String
  | .payload tf hf => (tf.getD [], hf.getD [])
  | .legacyList ts => (ts, [])
  | .otherData => ([], [])

/-- The fixed text of the `RuntimeError` raised when the canonical file is
corrupt and no `.tmp` backup exists (main.py lines 95-97). It does not
interpolate the renamed path. -/
def noBackupMsg : String :=
  "The main audit file is corrupted and no backup was found, the corrupted file has been renamed to .corrupt, on next-boot a new file will be created however any previously stored audit trails will be lost."

/-- `AuditServer.load_audit_trails` (main.py lines 49-101). The result is the
loaded `(trails, hosts)` or the raised error message, together with the
filesystem as left behind (renames performed before an exception persist).
`gas` bounds the self-recursion of the recovery path (the Python recursion
terminates because the `.tmp` file is consumed by the promotion rename;
`gas = 2` is enough and the `gas = 0` case is never reached then). -/
def load_audit_trails (gas : ℕ) (now : ℕ) (fs : FS) :
    Except String (List Trail × List String) × FS :=
  match gas with
  | 0 => (.error "model: out of fuel", fs)
  | g + 1 =>
    match fs.canonical with
    | none =>
        (.ok ([], []),
         { fs with log := fs.log ++ ["No audit trails found at " ++ pickleLocation ++ ". Starting fresh."] })
    | some (.data snap) => (.ok (interpSnapshot snap), fs)
    | some .corrupt =>
        let cname := corruptFileName now
        let fs1 : FS :=
          { fs with
              canonical := none
              saved := (cname, FileContent.corrupt) :: fs.saved
              log := fs.log ++
                ["Failed to load audit trails from " ++ pickleLocation ++ ". Searching for backup.",
                 "Renamed corrupted file to " ++ cname] }
        match fs1.tmp with
        | none => (.error noBackupMsg, fs1)
        | some c =>
            let fs2 : FS := { fs1 with canonical := some c, tmp := none }
            match load_audit_trails g now fs2 with
            | (.ok res, fs3) =>
                (.ok res,
                 { fs3 with
                     saved := fs3.saved.filter (fun p => p.1 ≠ cname)
                     log := fs3.log ++ ["Recovered from backup successfully."] })
            | (.error e, fs3) => (.error e, fs3)

/-! ## Host registry (`AuditServer.add_host`) -/

/-- Python `str.strip()`: drop leading and trailing whitespace.  Defined over
the character list so that it evaluates by kernel reduction. -/
def pyStrip (s : String) : String :=
  String.mk (((s.data.dropWhile Char.isWhitespace).reverse.dropWhile Char.isWhitespace).reverse)

/-- Operator-visible outcome of `add_host`. -/
inductive AddHostReply where
  | emptyIgnored
  | added
  | alreadyPresent
deriving DecidableEq, Repr

/-- `AuditServer.add_host` (main.py lines 195-205): strip the address; ignore
it if empty; append and persist if new; otherwise report it as already
present.  The `Bool` records whether `save_audit_trails` was called. -/
def add_host (hosts : List String) (host : String) :
    List String × AddHostReply × Bool :=
  let h := pyStrip host
  if h = "" then (hosts, .emptyIgnored, false)
  else if h ∉ hosts then (hosts ++ [h], .added, true)
  else (hosts, .alreadyPresent, false)

/-! ## Command Handler (`AuditServer.handle_client`) -/

/-- One `projects.add(...)` step of `available_projects` (main.py line 635):
insert `trail.get('project_name', 'unknown_project')` if not yet present. -/
def availStep (acc : List JVal) (trail : Trail) : List JVal :=
  let pn := (assocLookup trail "project_name").getD (JVal.s "unknown_project")
  if pn ∈ acc then acc else acc ++ [pn]

/-- `AuditServer.available_projects` (main.py lines 630-636): the set of
`trail.get('project_name', 'unknown_project')` values.  The Python set is
unordered; it is modelled as an insertion-ordered duplicate-free list, which
is faithful up to ordering (no claim depends on the order). -/
def available_projects (trails : List Trail) : List JVal :=
  trails.foldl availStep []

/-- Python `str.startswith`, over character lists so it kernel-evaluates. -/
def pyStartsWith (s pre : String) : Bool :=
  pre.data.isPrefixOf s.data

/-- One message received by `handle_client`: either bytes that decode as
UTF-8 to the string `s` (an empty receive corresponds to `s = ""`), or
nonempty bytes that are not valid UTF-8 (for which `data.decode()` raises
`UnicodeDecodeError`). -/
inductive Inbound where
  | text (s : String)
  | undecodable
deriving DecidableEq, Repr

/-- What the handler sends back for one message. -/
inductive Reply where
  | ack (msg : String)
  | projectsJson (ps : List JVal)
deriving DecidableEq, Repr

/-- Result of processing one inbound message: a reply with the new store
state and whether it was persisted, the loop ending (empty read), or the
handler thread dying on an uncaught exception (which closes the socket via
the `with client_socket` block without sending anything). -/
inductive HandlerOutcome where
  | replied (r : Reply) (st : Store) (persisted : Bool)
  | closedConn (st : Store)
  | crashed (st : Store)
deriving DecidableEq, Repr

/-- One iteration of the `handle_client` receive loop (main.py lines
133-170), parameterized by the JSON parser (`json.loads` restricted to
object payloads, the shape every producer sends; `parseJson s = none` models
`json.JSONDecodeError`).  Control tokens are compared as raw bytes, so they
only ever match decodable messages; an undecodable message falls through the
three exact-token checks and crashes at the `data.decode()` inside the
`dump_compact_with_filter:` check on line 148, because `UnicodeDecodeError`
is caught nowhere in the handler. -/
def handle_client_step (parseJson : String → Option Trail) (st : Store)
    (m : Inbound) : HandlerOutcome :=
  match m with
  | .undecodable => .crashed st
  | .text s =>
    if s = "dump_audit_trails" then .replied (.ack "Audit trails dumped") st false
    else if s = "dump_audit_trails_all" then .replied (.ack "All audit trails dumped") st false
    else if s = "dump_compact" then .replied (.ack "Compact audit dump created") st false
    else if pyStartsWith s "dump_compact_with_filter:" then
      .replied (.ack "Compact audit dump with filters created") st false
    else if s = "available_projects" then
      .replied (.projectsJson (available_projects st.trails)) st false
    else if s = "" then .closedConn st
    else
      match parseJson s with
      | some t => .replied (.ack "Data received") { st with trails := st.trails ++ [t] } true
      | none => .replied (.ack "Invalid JSON data received") st false

/-! ## Machine Agent request handling and process scan
(`AuditableMachine._process_connection`, `generate_audit_report`,
`get_active_processes`) -/

/-- One entry of `machine_config.json`. -/
structure ConfEntry where
  name : String
  description : String
  filepath : String
deriving DecidableEq, Repr

/-- One row of the live process table (`utils3.system.allProcesses`). -/
structure Proc where
  pid : ℕ
  cmd : String
deriving DecidableEq, Repr

/-- One value of the `active_processes` mapping in the audit report. -/
structure ActiveEntry where
  pid : Option ℕ
  name : String
  description : String
  status : String
deriving DecidableEq, Repr

/-- Python substring test `needle in hay` over character lists. -/
def listContainsSub (needle : List Char) : List Char → Bool
  | [] => needle.isEmpty
  | c :: t => needle.isPrefixOf (c :: t) || listContainsSub needle t

/-- Python `needle in hay` for strings. -/
def strContains (hay needle : String) : Bool :=
  listContainsSub needle.data hay.data

/-- The reverse map built on machine.py line 139:
`{conf[key]['filepath']: key for key in config_keys}` — a dict comprehension,
so a repeated filepath keeps its first position but ends up mapped to the
last key that mentions it. -/
def filepathToKey (conf : List (String × ConfEntry)) : List (String × String) :=
  conf.foldl (fun m ke => assocSet m ke.2.filepath ke.1) []

/-- The `running` entry written on machine.py lines 144-149:
`{'pid': proc.pid, 'name': conf[key]['name'], ...}`.  The `getD` default
models the unreachable `KeyError` branch: every key in the reverse map comes
from `conf`. -/
def runningEntry (conf : List (String × ConfEntry)) (p : Proc) (key : String) :
    ActiveEntry :=
  let e := (assocLookup conf key).getD ⟨"", "", ""⟩
  ⟨some p.pid, e.name, e.description, "running"⟩

/-- The body of the nested loop on machine.py lines 142-149: for one process
`p` and one reverse-map pair `fk = (filepath, key)`, overwrite the entry for
`key` whenever `filepath in proc.cmd`. -/
def scanProcStep (conf : List (String × ConfEntry)) (p : Proc)
    (acc : List (String × ActiveEntry)) (fk : String × String) :
    List (String × ActiveEntry) :=
  if strContains p.cmd fk.1 then assocSet acc fk.2 (runningEntry conf p fk.2)
  else acc

/-- The scan phase (machine.py lines 141-149): iterate the process table in
order, and for each process iterate the reverse map; a later matching
process overwrites the entry written by an earlier one. -/
def scanProcs (conf : List (String × ConfEntry)) (procs : List Proc) :
    List (String × ActiveEntry) :=
  procs.foldl (fun acc p => (filepathToKey conf).foldl (scanProcStep conf p) acc) []

/-- The completion loop body (machine.py lines 152-159): a configured key
not yet present is added as not running with a null pid. -/
def completionStep (acc : List (String × ActiveEntry))
    (ke : String × ConfEntry) : List (String × ActiveEntry) :=
  if (assocLookup acc ke.1).isSome then acc
  else assocSet acc ke.1 ⟨none, ke.2.name, ke.2.description, "not running"⟩

/-- `AuditableMachine.get_active_processes` (machine.py lines 131-161):
the scan phase followed by the completion loop. -/
def get_active_processes (conf : List (String × ConfEntry)) (procs : List Proc) :
    List (String × ActiveEntry) :=
  conf.foldl completionStep (scanProcs conf procs)

/-- The audit report (machine.py lines 163-177). -/
structure AuditReport where
  machineId : String
  currentTime : ℚ
  thisSessionBootTime : ℚ
  last24hBoots : ℕ
  currentUpTimeSeconds : ℚ
  activeProcesses : List (String × ActiveEntry)
deriving DecidableEq, Repr

/-- `AuditableMachine.generate_audit_report`: `boot_times[-1]` raises
`IndexError` on an empty list (never the case after `_boot_event`);
`last_24h_boots` is simply `len(boot_times)`. -/
def generate_audit_report (machineId : String) (bootTimes : List ℚ)
    (conf : List (String × ConfEntry)) (procs : List Proc) (now : ℚ) :
    Except PyErr AuditReport :=
  match bootTimes.getLast? with
  | none => .error .indexError
  | some b =>
      .ok ⟨machineId, now, b, bootTimes.length, now - b,
           get_active_processes conf procs⟩

/-- What the agent sends back for one connection: the framed JSON of an
audit report, the literal 4 bytes `0000`, or nothing (an exception inside the
handler is printed and the connection just closes). -/
inductive AgentReply where
  | framedJson (report : AuditReport)
  | emptyMarker
  | noReply
deriving DecidableEq, Repr

/-- `AuditableMachine._process_connection` (machine.py lines 84-102): decode
and strip the request token; `audit` answers with the length-prefixed JSON
report; every other token gets the 4-byte `b'0000'` reply. -/
def process_connection (machineId : String) (bootTimes : List ℚ)
    (conf : List (String × ConfEntry)) (procs : List Proc) (now : ℚ)
    (raw : String) : AgentReply :=
  let request := pyStrip raw
  if request = "audit" then
    match generate_audit_report machineId bootTimes conf procs now with
    | .ok r => .framedJson r
    | .error _ => .noReply
  else .emptyMarker

/-- 4-byte big-endian encoding of a length below 2^32. -/
def beBytes4 (n : ℕ) : List ℕ :=
  [n / 16777216 % 256, n / 65536 % 256, n / 256 % 256, n % 256]

/-- The agent framing: `size_of_response.to_bytes(4, 'big') + response`. -/
def frameBytes (payload : List ℕ) : List ℕ :=
  beBytes4 payload.length ++ payload

/-- The unknown-token reply `b'0000'`: four ASCII `0` bytes (48), not a
zero-valued length prefix. -/
def emptyMarkerBytes : List ℕ := [48, 48, 48, 48]

/-- Bytes put on the wire for an agent reply, given a JSON encoder for
reports (the encoder abstracts `json.dumps(...).encode('utf-8')`). -/
def agentWireBytes (encode : AuditReport → List ℕ) : AgentReply → List ℕ
  | .framedJson r => frameBytes (encode r)
  | .emptyMarker => emptyMarkerBytes
  | .noReply => []

/-! ## Diagnostic Analyzer (`AuditServer.diagnose_connection`, bottleneck
analysis of main.py lines 476-543) -/

/-- The metrics collected before the bottleneck analysis starts (the local
variables of `diagnose_connection` at line 476): measured RTT if the
timestamp ping succeeded, the two network-fault flags (speedtest installed
but failed to run), the two has-data flags, and the download figures in Mbps
(left at their initial `0` when the corresponding side has no data, exactly
as in the source). -/
structure DiagInputs where
  rtt : Option ℚ
  localFault : Bool
  remoteFault : Bool
  localHasData : Bool
  remoteHasData : Bool
  localDownload : ℚ
  remoteDownload : ℚ
deriving DecidableEq, Repr

/-- The first matching rule of the bottleneck analysis, one constructor per
printed verdict.  `noVerdict` is the fall-through inside the both-sides-have
-data branch where none of its three conditions holds. -/
inductive Verdict where
  | connectivityProblem
  | bothNetworkFaults
  | localNetworkFault
  | remoteNetworkFault
  | latencyBottleneck
  | similarSpeeds (sharedBottleneck : Bool)
  | blameRemoteSlower
  | blameLocalSlower
  | blameRemoteNoData
  | blameLocalNoData
  | inconclusive
  | noVerdict
deriving DecidableEq, Repr

/-- `speed_diff_threshold = 20  # Mbps` (main.py line 508). -/
def speedDiffThreshold : ℚ := 20

/-- The blame-assignment chain of `diagnose_connection` (main.py lines
479-541), rule for rule in source order.  Note the latency rule is
`elif rtt > 150:` — strictly greater — and the speed-comparison branch has no
`else`, so a download difference of exactly 20 Mbps produces no verdict. -/
def bottleneck_verdict (d : DiagInputs) : Verdict :=
  match d.rtt with
  | none => .connectivityProblem
  | some rtt =>
    if d.localFault && d.remoteFault then .bothNetworkFaults
    else if d.localFault then .localNetworkFault
    else if d.remoteFault then .remoteNetworkFault
    else if rtt > 150 then .latencyBottleneck
    else if d.localHasData && d.remoteHasData then
      if |d.localDownload - d.remoteDownload| < speedDiffThreshold then
        .similarSpeeds (min d.localDownload d.remoteDownload < 10)
      else if d.localDownload > d.remoteDownload + speedDiffThreshold then
        .blameRemoteSlower
      else if d.remoteDownload > d.localDownload + speedDiffThreshold then
        .blameLocalSlower
      else .noVerdict
    else if d.localHasData && !d.remoteHasData then .blameRemoteNoData
    else if d.remoteHasData && !d.localHasData then .blameLocalNoData
    else .inconclusive

/-! ## Dump operations (`AuditServer.dump_audit_trails`,
`AuditServer.dump_all_compact`) -/

/-- Python `trail[k]`: raises `KeyError` when the key is missing. -/
def pyGetItem (t : Trail) (k : String) : Except PyErr JVal :=
  match assocLookup t k with
  | some v => .ok v
  | none => .error (.keyError k)

/-- Numeric coercion as Python arithmetic performs it: floats/ints are
numbers, `bool` is an int subclass (`True` is 1), everything else raises
`TypeError`. -/
def asNum : JVal → Except PyErr ℚ
  | .n q => .ok q
  | .b v => .ok (if v then 1 else 0)
  | _ => .error .typeError

/-- The grouping loop of `AuditServer.dump_audit_trails` (main.py lines
174-184): `trail['project_name']` (a `KeyError` if missing) keys the group
dict; with `todayOnly` the trail is skipped when `time.time() -
trail['timestamp']` exceeds 30 hours (another `KeyError`/`TypeError` site).
The subsequent steps (attaching `external_hosts`, fetching remote audits and
writing the JSON file) run only after this loop finishes and raise no
`KeyError` on trails. -/
def dump_trail_step (todayOnly : Bool) (now : ℚ) (d : List (JVal × List Trail))
    (trail : Trail) : Except PyErr (List (JVal × List Trail)) := do
  let pn ← pyGetItem trail "project_name"
  let d := if (assocLookup d pn).isSome then d else d ++ [(pn, [])]
  let keep ← if todayOnly then do
      let tsv ← pyGetItem trail "timestamp"
      let ts ← asNum tsv
      pure !(decide (now - ts > 30 * 60 * 60))
    else pure true
  if keep then
    pure (assocSet d pn ((assocLookup d pn).getD [] ++ [trail]))
  else
    pure d

/-- The whole grouping loop: fold `dump_trail_step` over the stored trails. -/
def dump_audit_trails_groups (todayOnly : Bool) (now : ℚ) (trails : List Trail) :
    Except PyErr (List (JVal × List Trail)) :=
  trails.foldlM (dump_trail_step todayOnly now) []

/-- Python's `<` between two sort keys, as used by `sorted(..., key=...)`:
numbers (and bools) compare numerically, strings lexicographically, anything
else raises `TypeError`.  (Comparisons involving nested containers, which no
claim exercises, are conservatively treated as unorderable.) -/
def pyKeyLe : JVal → JVal → Except PyErr Bool
  | .n a, .n b => .ok (a ≤ b)
  | .n a, .b v => .ok (a ≤ if v then 1 else 0)
  | .b v, .n b => .ok ((if v then (1:ℚ) else 0) ≤ b)
  | .b v, .b w => .ok ((if v then (1:ℚ) else 0) ≤ if w then 1 else 0)
  | .s a, .s b => .ok (a ≤ b)
  | _, _ => .error .typeError

/-- The sort key of main.py line 610: `x.get('timestamp', 0)`. -/
def timestampKey (t : Trail) : JVal :=
  (assocLookup t "timestamp").getD (JVal.n 0)

/-- `sorted(trails, key=lambda x: x.get('timestamp', 0))`: succeeds when the
extracted keys are mutually comparable, raising `TypeError` otherwise (which
pairs CPython actually compares depends on its sort algorithm; requiring all
pairs comparable is the deterministic model of that). -/
def sortedByTimestamp (ts : List Trail) : Except PyErr (List Trail) :=
  if ts.all (fun a => ts.all (fun b => (pyKeyLe (timestampKey a) (timestampKey b)).isOk)) then
    .ok (ts.mergeSort (fun a b =>
      (pyKeyLe (timestampKey a) (timestampKey b)).toOption.getD true))
  else
    .error .typeError

/-- Python `str(value)` for trail values as printed by the compact dump
(abstracting the precise repr of the opaque nested values). -/
def renderJVal : JVal → String
  | .s v => v
  | .n v => toString v
  | .b v => if v then "True" else "False"
  | .nullv => "None"
  | .other i => "object " ++ toString i

/-- Abstraction of
`datetime.datetime.fromtimestamp(v).strftime('%Y-%m-%d %H:%M:%S')`: the
calendar formatting itself is irrelevant to every claim, but its argument
must be a number. -/
def renderTimestamp (q : ℚ) : String :=
  "timestamp " ++ toString q

/-- A 40-character separator line (`"=" * 40` / `"-" * 40`). -/
def sepLine (c : Char) : String :=
  String.mk (List.replicate 40 c)

/-- Rendering of one field line of the compact dump (main.py lines 616-619):
`timestamp` values must be numeric, everything else stringifies. -/
def renderFieldStep (acc : String) (kv : String × JVal) : Except PyErr String := do
  let valStr ← if kv.1 = "timestamp" then do
      let q ← asNum kv.2
      pure (renderTimestamp q)
    else pure (renderJVal kv.2)
  pure (acc ++ kv.1 ++ ": " ++ valStr ++ "\n")

/-- The per-trail block of the compact dump (main.py lines 614-619): a blank
line, then one `key: value` line per field. -/
def renderTrail (trail : Trail) : Except PyErr String :=
  trail.foldlM renderFieldStep "\n"

/-- Does a group key pass the project filter (main.py line 600:
`project_filters and project_name not in project_filters`)?  Membership of a
non-string key in a list of strings is always false. -/
def jvalInStrList (v : JVal) (l : List String) : Bool :=
  match v with
  | .s s => l.contains s
  | _ => false

/-- `AuditServer.dump_all_compact` (main.py lines 589-628): group trails by
`trail.get('project_name', 'unknown_project')`, dropping projects excluded
by a nonempty filter list; then render a header plus one block per project,
its trails sorted by the `timestamp` key (default `0`).  Missing keys never
raise here — only mis-typed `timestamp` values can. -/
def compact_group_step (project_filters : List String)
    (ps : List (JVal × List Trail)) (trail : Trail) : List (JVal × List Trail) :=
  let pn := (assocLookup trail "project_name").getD (JVal.s "unknown_project")
  if project_filters ≠ [] && !(jvalInStrList pn project_filters) then ps
  else assocSet ps pn ((assocLookup ps pn).getD [] ++ [trail])

/-- Rendering of one project block of the compact dump (main.py 609-619). -/
def compact_render_step (acc : String) (pv : JVal × List Trail) :
    Except PyErr String := do
  let sortedTrails ← sortedByTimestamp pv.2
  let trailsTxt ← sortedTrails.foldlM (fun a t => do
    pure (a ++ (← renderTrail t))) ""
  pure (acc ++ sepLine '=' ++ "\n" ++ "Project: " ++ renderJVal pv.1 ++ "\n"
          ++ sepLine '-' ++ "\n" ++ trailsTxt)

def dump_all_compact (project_filters : List String) (nowStr : String)
    (trails : List Trail) : Except PyErr String :=
  (trails.foldl (compact_group_step project_filters) []).foldlM
    compact_render_step
    ("AUDIT SERVER COMPACT DUMP (" ++ nowStr ++ ")\n")

/-- Does an `Except` hold a `KeyError`? -/
def isKeyErr {α : Type} : Except PyErr α → Bool
  | .error (.keyError _) => true
  | _ => false

/-- Is an `Except` a success? -/
def isOkE {ε α : Type} : Except ε α → Bool
  | .ok _ => true
  | .error _ => false

/-! ## Helper lemmas about the association-list dict model -/

theorem assocLookup_assocSet_self {κ α : Type} [DecidableEq κ]
    (l : List (κ × α)) (k : κ) (v : α) :
    assocLookup (assocSet l k v) k = some v := by
  induction l with
  | nil => simp [assocSet, assocLookup]
  | cons hd tl ih =>
      by_cases h : hd.1 = k
      · simp [assocSet, assocLookup, h]
      · simpa [assocSet, assocLookup, h] using ih

theorem assocLookup_assocSet_other {κ α : Type} [DecidableEq κ]
    (l : List (κ × α)) {k k' : κ} (h : k' ≠ k) (v : α) :
    assocLookup (assocSet l k' v) k = assocLookup l k := by
  induction l with
  | nil => simp [assocSet, assocLookup, h]
  | cons hd tl ih =>
      by_cases h0 : hd.1 = k'
      · simp [assocSet, assocLookup, h0, h]
      · simp [assocSet, assocLookup, h0, ih]

theorem assocLookup_eq_some_of_mem {κ α : Type} [DecidableEq κ]
    {l : List (κ × α)} {k : κ} {v : α}
    (hnd : (l.map Prod.fst).Nodup) (hmem : (k, v) ∈ l) :
    assocLookup l k = some v := by
  induction l with
  | nil => cases hmem
  | cons hd tl ih =>
      rcases List.mem_cons.mp hmem with h | h
      · subst h; simp [assocLookup]
      · have hk : hd.1 ≠ k := by
          intro hk
          have : k ∈ tl.map Prod.fst := List.mem_map.mpr ⟨(k, v), h, rfl⟩
          rw [List.map_cons, List.nodup_cons, hk] at hnd
          exact hnd.1 this
        have hnd' : (tl.map Prod.fst).Nodup := by
          rw [List.map_cons, List.nodup_cons] at hnd
          exact hnd.2
        simpa [assocLookup, hk] using ih hnd' h

theorem mem_of_assocLookup_eq_some {κ α : Type} [DecidableEq κ]
    {l : List (κ × α)} {k : κ} {v : α} (h : assocLookup l k = some v) :
    (k, v) ∈ l := by
  induction l with
  | nil => simp [assocLookup] at h
  | cons hd tl ih =>
      by_cases h0 : hd.1 = k
      · rw [assocLookup, if_pos h0] at h
        have hhd : hd = (k, v) := by
          cases hd
          simp_all
        exact List.mem_cons.mpr (Or.inl hhd.symm)
      · rw [assocLookup, if_neg h0] at h
        exact List.mem_cons_of_mem _ (ih h)

/-! ## Claim C1 -/

/-- Claim C1 (code bug, flagged in spec section 9 as well): once the
liveness window holds the cap of 172,800 samples, the next heartbeat does
NOT evict just the oldest sample — the assignment
`self.data['last_alive'] = self.data['last_alive'].pop(0)` replaces the
whole window with the single popped oldest timestamp, and the following
heartbeat then raises an uncaught `AttributeError` (a float has no
`append`), killing the heartbeat thread.  The window is destroyed instead of
being trimmed to the most recent samples. -/
theorem last_alive_eviction_bug (ts : List ℚ) (now now2 : ℚ)
    (h : ts.length = lastAliveCap) :
    update_last_alive_step now (.lst ts) = .ok (.scalar ((ts ++ [now]).headI)) ∧
    update_last_alive_step now2 (.scalar ((ts ++ [now]).headI)) =
      .error .attributeError := by
  refine ⟨?_, rfl⟩
  simp [update_last_alive_step, h]

/-- Witness for C1: a window of exactly 172,800 zero timestamps. -/
theorem last_alive_eviction_bug_witness :
    update_last_alive_step 1 (.lst (List.replicate lastAliveCap 0)) =
      .ok (.scalar ((List.replicate lastAliveCap (0:ℚ) ++ [1]).headI)) ∧
    update_last_alive_step 2
        (.scalar ((List.replicate lastAliveCap (0:ℚ) ++ [1]).headI)) =
      .error .attributeError :=
  last_alive_eviction_bug (List.replicate lastAliveCap 0) 1 2 (by simp)

/-! ## Claim C2 -/

/-- Claim C2 (confirmed): saving the store and loading it back yields
exactly the `{trails, hosts}` pair that was saved, for every store state and
every prior filesystem state. -/
theorem save_load_roundtrip (st : Store) (fs : FS) (now : ℕ) :
    (load_audit_trails 2 now (save_audit_trails st fs)).1 =
      .ok (st.trails, st.hosts) := rfl

/-! ## Claim C3 -/

/-- Counterexample for C3 as stated: on detecting a corrupt canonical file
at unix time 1700000000 the store renames it to
`<path>_1700000000.corrupt` — an `_<unixtime>.corrupt` suffix — which is not
the `.corrupt.<unixtime>` suffix the claim describes. -/
theorem corrupt_rename_suffix_counterexample :
    (load_audit_trails 2 1700000000
        ⟨some .corrupt, none, [], []⟩).2.saved =
      [(pickleLocation ++ "_1700000000.corrupt", .corrupt)] ∧
    pickleLocation ++ "_1700000000.corrupt" ≠
      pickleLocation ++ ".corrupt.1700000000" := by
  exact ⟨rfl, by decide⟩

/-- Claim C3 (corrected): when the canonical file fails to deserialize it is
renamed aside with an `_<unixtime>.corrupt` suffix (not `.corrupt.<unixtime>`)
and that saved location is reported on the operator log; a leftover `.tmp`
file, if present, is promoted to canonical and the load is retried from it
(removing the renamed corrupt file on success); with no `.tmp` file — or a
`.tmp` file that is itself corrupt — the load raises the fatal
`RuntimeError`, never silently returning empty state. -/
theorem corrupt_recovery (fs : FS) (now : ℕ)
    (h : fs.canonical = some .corrupt) :
    (fs.tmp = none →
      load_audit_trails 2 now fs =
        (.error noBackupMsg,
         { canonical := none
           tmp := none
           saved := (corruptFileName now, .corrupt) :: fs.saved
           log := fs.log ++
             ["Failed to load audit trails from " ++ pickleLocation ++ ". Searching for backup.",
              "Renamed corrupted file to " ++ corruptFileName now] })) ∧
    (∀ snap, fs.tmp = some (.data snap) →
      (load_audit_trails 2 now fs).1 = .ok (interpSnapshot snap) ∧
      (load_audit_trails 2 now fs).2.canonical = some (.data snap) ∧
      (load_audit_trails 2 now fs).2.tmp = none ∧
      (load_audit_trails 2 now fs).2.saved =
        fs.saved.filter (fun p => p.1 ≠ corruptFileName now)) ∧
    (fs.tmp = some .corrupt →
      (load_audit_trails 2 now fs).1 = .error noBackupMsg) := by
  refine ⟨?_, ?_, ?_⟩
  · intro htmp
    simp [load_audit_trails, h, htmp]
  · intro snap htmp
    simp [load_audit_trails, h, htmp, interpSnapshot]
  · intro htmp
    simp [load_audit_trails, h, htmp]

/-- Witness for C3: a corrupt canonical file next to an intact `.tmp`
snapshot holding one host; the load recovers exactly that snapshot. -/
theorem corrupt_recovery_witness :
    (load_audit_trails 2 42
        ⟨some .corrupt, some (.data (.payload (some []) (some ["h1"]))), [], []⟩).1 =
      .ok (interpSnapshot (.payload (some []) (some ["h1"]))) ∧
    (load_audit_trails 2 42
        ⟨some .corrupt, some (.data (.payload (some []) (some ["h1"]))), [], []⟩).2.canonical =
      some (.data (.payload (some []) (some ["h1"]))) ∧
    (load_audit_trails 2 42
        ⟨some .corrupt, some (.data (.payload (some []) (some ["h1"]))), [], []⟩).2.tmp =
      none ∧
    (load_audit_trails 2 42
        ⟨some .corrupt, some (.data (.payload (some []) (some ["h1"]))), [], []⟩).2.saved =
      ([] : List (String × FileContent)).filter (fun p => p.1 ≠ corruptFileName 42) :=
  (corrupt_recovery _ 42 rfl).2.1 _ rfl

/-! ## Claim C4 -/

/-- Claim C4 (confirmed): for a duplicate-free registry (the documented
invariant) and a nonempty stripped address, `add_host` on an address already
present leaves the registry unchanged — still exactly one entry for it —
and reports it as already present without persisting; on a new address it
appends it and persists. -/
theorem add_host_idempotent (hosts : List String) (host : String)
    (hnd : hosts.Nodup) (hne : pyStrip host ≠ "") :
    (pyStrip host ∈ hosts →
      add_host hosts host = (hosts, .alreadyPresent, false) ∧
      hosts.count (pyStrip host) = 1) ∧
    (pyStrip host ∉ hosts →
      add_host hosts host = (hosts ++ [pyStrip host], .added, true) ∧
      (hosts ++ [pyStrip host]).count (pyStrip host) = 1) := by
  constructor
  · intro hmem
    refine ⟨?_, List.count_eq_one_of_mem hnd hmem⟩
    simp [add_host, hne, hmem]
  · intro hnot
    refine ⟨by simp [add_host, hne, hnot], ?_⟩
    rw [List.count_append]
    simp [List.count_eq_zero.mpr hnot]

/-- Witness for C4: a registry already holding `10.0.0.5`; adding it again
changes nothing, does not persist, and the registry has exactly one entry. -/
theorem add_host_idempotent_witness :
    add_host ["10.0.0.5"] "10.0.0.5" = (["10.0.0.5"], .alreadyPresent, false) ∧
    (["10.0.0.5"] : List String).count (pyStrip "10.0.0.5") = 1 :=
  (add_host_idempotent ["10.0.0.5"] "10.0.0.5" (by decide) (by decide)).1 (by decide)

/-! ## Claim C5 -/

/-- Counterexample for C5 as stated: a message whose bytes are not valid
UTF-8 is not a control token and does not parse as JSON, yet it does NOT get
the invalid-data reply — `data.decode()` on main.py line 148 raises
`UnicodeDecodeError`, which no handler catches, so the worker thread dies
and the connection closes without any reply. -/
theorem nonutf8_event_crashes_handler :
    handle_client_step (fun _ => none) ⟨[], []⟩ .undecodable = .crashed ⟨[], []⟩ ∧
    handle_client_step (fun _ => none) ⟨[], []⟩ .undecodable ≠
      .replied (.ack "Invalid JSON data received") ⟨[], []⟩ false := by
  exact ⟨rfl, by decide⟩

/-- Claim C5 (corrected to UTF-8-decodable messages): a decodable inbound
message that is none of the control tokens and fails JSON parsing gets the
invalid-data notice, leaves the trail list untouched and unpersisted, and
the connection loop continues; one that parses is appended to the store,
persisted and acknowledged. -/
theorem handler_event_dispatch (parseJson : String → Option Trail) (st : Store)
    (s : String)
    (h1 : s ≠ "dump_audit_trails") (h2 : s ≠ "dump_audit_trails_all")
    (h3 : s ≠ "dump_compact")
    (h4 : pyStartsWith s "dump_compact_with_filter:" = false)
    (h5 : s ≠ "available_projects") (h6 : s ≠ "") :
    (parseJson s = none →
      handle_client_step parseJson st (.text s) =
        .replied (.ack "Invalid JSON data received") st false) ∧
    (∀ t, parseJson s = some t →
      handle_client_step parseJson st (.text s) =
        .replied (.ack "Data received") { st with trails := st.trails ++ [t] } true) := by
  constructor
  · intro hp
    simp [handle_client_step, h1, h2, h3, h4, h5, h6, hp]
  · intro t hp
    simp [handle_client_step, h1, h2, h3, h4, h5, h6, hp]

/-- Witness for C5: an empty store, the message `not json`, and a parser
that rejects it. -/
theorem handler_event_dispatch_witness :
    handle_client_step (fun _ => none) ⟨[], []⟩ (.text "not json") =
      .replied (.ack "Invalid JSON data received") ⟨[], []⟩ false :=
  (handler_event_dispatch (fun _ => none) ⟨[], []⟩ "not json"
    (by decide) (by decide) (by decide) (by decide) (by decide) (by decide)).1 rfl

/-! ## Claim C6 -/

/-- Counterexample for C6 as stated: the agent answers `timestamp` and
`speedtest` with the fixed 4-byte `0000` empty marker, not with a
length-prefixed JSON response — only `audit` is recognized
(machine.py lines 92-98). -/
theorem agent_timestamp_speedtest_counterexample :
    process_connection "m1" [0] [] [] 10 "timestamp" = .emptyMarker ∧
    process_connection "m1" [0] [] [] 10 "speedtest" = .emptyMarker ∧
    process_connection "m1" [0] [] [] 10 "timestamp" ≠
      .framedJson ⟨"m1", 10, 0, 1, 10 - 0, get_active_processes [] []⟩ := by
  exact ⟨rfl, rfl, by decide⟩

/-- Claim C6 (corrected): the agent answers the `audit` token with the
length-prefixed JSON audit report; every other token — including
`timestamp` and `speedtest` — receives the fixed 4-byte `0000` reply. -/
theorem agent_request_dispatch (machineId : String) (bootTimes : List ℚ)
    (conf : List (String × ConfEntry)) (procs : List Proc) (now : ℚ)
    (raw : String) (hboot : bootTimes ≠ []) :
    (pyStrip raw = "audit" →
      process_connection machineId bootTimes conf procs now raw =
        .framedJson ⟨machineId, now, bootTimes.getLastD 0, bootTimes.length,
                     now - bootTimes.getLastD 0, get_active_processes conf procs⟩) ∧
    (pyStrip raw ≠ "audit" →
      process_connection machineId bootTimes conf procs now raw = .emptyMarker) ∧
    (∀ encode r, agentWireBytes encode (.framedJson r) = frameBytes (encode r)) ∧
    agentWireBytes (fun _ => []) .emptyMarker = emptyMarkerBytes := by
  refine ⟨?_, ?_, fun _ _ => rfl, rfl⟩
  · intro ha
    have hlast : bootTimes.getLast? = some (bootTimes.getLastD 0) := by
      rw [List.getLastD_eq_getLast?]
      cases hl : bootTimes.getLast? with
      | none => exact absurd (List.getLast?_eq_none_iff.mp hl) hboot
      | some b => rfl
    simp only [process_connection, generate_audit_report, ha, hlast, if_pos]
  · intro ha
    simp [process_connection, ha]

/-- Witness for C6: an agent with one boot timestamp answering ` audit `
(whitespace stripped) with the framed report, and `timestamp` with `0000`. -/
theorem agent_request_dispatch_witness :
    (process_connection "m1" [0] [] [] 10 " audit " =
      .framedJson ⟨"m1", 10, [(0:ℚ)].getLastD 0, [(0:ℚ)].length,
                   10 - [(0:ℚ)].getLastD 0, get_active_processes [] []⟩) ∧
    process_connection "m1" [0] [] [] 10 "timestamp" = .emptyMarker :=
  ⟨(agent_request_dispatch "m1" [0] [] [] 10 " audit " (by decide)).1 (by decide),
   (agent_request_dispatch "m1" [0] [] [] 10 "timestamp" (by decide)).2.1 (by decide)⟩

/-! ## Claim C7 -/

/-- Counterexample for C7 as stated: at a measured RTT of exactly 150 ms —
which satisfies the claim's "at least 150 ms" — with no network faults and
both sides reporting 100 Mbps, the analyzer does not report latency: the
rule on main.py line 500 is `elif rtt > 150:`, strictly greater, so the
diagnosis falls through to the speed comparison. -/
theorem rtt_150_not_latency_counterexample :
    bottleneck_verdict ⟨some 150, false, false, true, true, 100, 100⟩ =
      .similarSpeeds false ∧
    bottleneck_verdict ⟨some 150, false, false, true, true, 100, 100⟩ ≠
      .latencyBottleneck := by
  have h : bottleneck_verdict ⟨some 150, false, false, true, true, 100, 100⟩ =
      .similarSpeeds false := by
    norm_num [bottleneck_verdict, speedDiffThreshold]
  exact ⟨h, by rw [h]; decide⟩

/-- Claim C7 (corrected to a strict threshold): whenever the host is
reachable (an RTT was measured), neither side is classified as a network
fault, and the RTT strictly exceeds 150 ms, the analyzer reports latency as
the primary bottleneck, regardless of the bandwidth data and figures of
either side. -/
theorem latency_rule_strict (d : DiagInputs) (r : ℚ) (hr : d.rtt = some r)
    (hl : d.localFault = false) (hrf : d.remoteFault = false)
    (h150 : r > 150) :
    bottleneck_verdict d = .latencyBottleneck := by
  simp [bottleneck_verdict, hr, hl, hrf, h150]

/-- Witness for C7: RTT 200 ms, no faults, bandwidth figures 80 and 15 Mbps
supplied by both sides — latency is still the verdict (the spec's own
example). -/
theorem latency_rule_strict_witness :
    bottleneck_verdict ⟨some 200, false, false, true, true, 80, 15⟩ =
      .latencyBottleneck :=
  latency_rule_strict ⟨some 200, false, false, true, true, 80, 15⟩ 200
    rfl rfl rfl (by decide)

/-! ## Claim C8 -/

/-- Counterexample for C8 as stated: at local download 80 Mbps and remote
download 60 Mbps the absolute difference is exactly 20 Mbps — not "below 20"
— so the claim's "otherwise" clause promises a verdict against the slower
remote side; but none of the three conditions on main.py lines 510-525
holds (`< 20`, `> +20`, `> +20` are all strict), so the analyzer issues no
speed verdict at all. -/
theorem speed_diff_exactly_20_counterexample :
    bottleneck_verdict ⟨some 10, false, false, true, true, 80, 60⟩ =
      .noVerdict ∧
    bottleneck_verdict ⟨some 10, false, false, true, true, 80, 60⟩ ≠
      .blameRemoteSlower := by
  have h : bottleneck_verdict ⟨some 10, false, false, true, true, 80, 60⟩ =
      .noVerdict := by
    norm_num [bottleneck_verdict, speedDiffThreshold]
  exact ⟨h, by rw [h]; decide⟩

/-- Claim C8 (corrected at the threshold boundary): in the speed-comparison
rule with both sides reporting download figures, a difference strictly below
20 Mbps yields the similar-speeds verdict (flagged as a shared bottleneck
exactly when the lower of the two figures is under 10 Mbps); a difference
strictly above 20 Mbps blames the side with the lower download throughput;
and at a difference of exactly 20 Mbps no verdict is issued. -/
theorem speed_comparison_rule (d : DiagInputs) (r : ℚ) (hr : d.rtt = some r)
    (hl : d.localFault = false) (hrf : d.remoteFault = false)
    (h150 : ¬ r > 150) (hld : d.localHasData = true)
    (hrd : d.remoteHasData = true) :
    (|d.localDownload - d.remoteDownload| < 20 →
      bottleneck_verdict d =
        .similarSpeeds (min d.localDownload d.remoteDownload < 10)) ∧
    (d.localDownload > d.remoteDownload + 20 →
      bottleneck_verdict d = .blameRemoteSlower) ∧
    (d.remoteDownload > d.localDownload + 20 →
      bottleneck_verdict d = .blameLocalSlower) ∧
    (|d.localDownload - d.remoteDownload| = 20 →
      bottleneck_verdict d = .noVerdict) := by
  refine ⟨?_, ?_, ?_, ?_⟩
  · intro hsim
    simp [bottleneck_verdict, hr, hl, hrf, h150, hld, hrd, speedDiffThreshold, hsim]
  · intro hgt
    have h1 : (20:ℚ) < d.localDownload - d.remoteDownload := by linarith
    have hns : ¬ |d.localDownload - d.remoteDownload| < 20 :=
      not_lt.mpr (le_trans h1.le (le_abs_self _))
    simp [bottleneck_verdict, hr, hl, hrf, h150, hld, hrd, speedDiffThreshold,
      hns, hgt]
  · intro hgt
    have h1 : (20:ℚ) < d.remoteDownload - d.localDownload := by linarith
    have h2 : d.remoteDownload - d.localDownload ≤
        |d.localDownload - d.remoteDownload| := by
      rw [abs_sub_comm]
      exact le_abs_self _
    have hns : ¬ |d.localDownload - d.remoteDownload| < 20 :=
      not_lt.mpr (le_trans h1.le h2)
    have hn2 : ¬ d.localDownload > d.remoteDownload + 20 := by
      intro hcon
      linarith
    simp [bottleneck_verdict, hr, hl, hrf, h150, hld, hrd, speedDiffThreshold,
      hns, hn2, hgt]
  · intro heq
    have hns : ¬ |d.localDownload - d.remoteDownload| < 20 := by
      rw [heq]
      norm_num
    have hcases := (abs_eq (show (0:ℚ) ≤ 20 by norm_num)).mp heq
    have hn2 : ¬ d.localDownload > d.remoteDownload + 20 := by
      rcases hcases with hc | hc <;> intro hcon <;> linarith
    have hn3 : ¬ d.remoteDownload > d.localDownload + 20 := by
      rcases hcases with hc | hc <;> intro hcon <;> linarith
    simp [bottleneck_verdict, hr, hl, hrf, h150, hld, hrd, speedDiffThreshold,
      hns, hn2, hn3]

/-- Witness for C8: the spec's example — local 80 Mbps, remote 15 Mbps,
difference above 20 Mbps — blames the remote host. -/
theorem speed_comparison_rule_witness :
    bottleneck_verdict ⟨some 10, false, false, true, true, 80, 15⟩ =
      .blameRemoteSlower :=
  (speed_comparison_rule ⟨some 10, false, false, true, true, 80, 15⟩ 10
    rfl rfl rfl (by decide) rfl rfl).2.1 (by norm_num)

/-! ## Claim C9: helper lemmas for the three folds of
`get_active_processes` -/

theorem assocSet_eq_append {κ α : Type} [DecidableEq κ]
    (l : List (κ × α)) (k : κ) (v : α) (h : k ∉ l.map Prod.fst) :
    assocSet l k v = l ++ [(k, v)] := by
  induction l with
  | nil => rfl
  | cons hd tl ih =>
      rw [List.map_cons, List.mem_cons] at h
      push_neg at h
      have hne : hd.1 ≠ k := fun hc => h.1 hc.symm
      simp only [assocSet, if_neg hne]
      rw [ih h.2, List.cons_append]

theorem foldl_assocSet_eq_append {κ α β : Type} [DecidableEq κ]
    (f : β → κ) (g : β → α) :
    ∀ (l : List β) (acc : List (κ × α)),
      (l.map f).Nodup → (∀ b ∈ l, f b ∉ acc.map Prod.fst) →
      l.foldl (fun m b => assocSet m (f b) (g b)) acc =
        acc ++ l.map (fun b => (f b, g b)) := by
  intro l
  induction l with
  | nil => simp
  | cons hd tl ih =>
      intro acc hnd hdisj
      rw [List.map_cons, List.nodup_cons] at hnd
      rw [List.foldl_cons,
        assocSet_eq_append acc (f hd) (g hd) (hdisj hd (List.mem_cons_self hd tl)),
        ih (acc ++ [(f hd, g hd)]) hnd.2 ?_, List.map_cons, List.append_assoc,
        List.singleton_append]
      intro b hb
      rw [List.map_append, List.mem_append]
      push_neg
      refine ⟨hdisj b (List.mem_cons_of_mem hd hb), ?_⟩
      intro hc
      rw [List.map_singleton, List.mem_singleton] at hc
      have hc2 : f b = f hd := hc
      exact hnd.1 (hc2 ▸ List.mem_map.mpr ⟨b, hb, rfl⟩)

theorem filepathToKey_eq_map (conf : List (String × ConfEntry))
    (hfps : (conf.map (fun ke => ke.2.filepath)).Nodup) :
    filepathToKey conf = conf.map (fun ke => (ke.2.filepath, ke.1)) := by
  have h := foldl_assocSet_eq_append (fun ke : String × ConfEntry => ke.2.filepath)
    (fun ke => ke.1) conf [] hfps (by simp)
  simpa [filepathToKey] using h

theorem local_find_append {α : Type} (p : α → Bool) :
    ∀ (l₁ l₂ : List α),
      (l₁ ++ l₂).find? p =
        match l₁.find? p with
        | some a => some a
        | none => l₂.find? p := by
  intro l₁ l₂
  induction l₁ with
  | nil => simp
  | cons hd tl ih =>
      by_cases h : p hd
      · simp [List.find?, h]
      · simp only [List.cons_append, List.find?, h]
        exact ih

theorem scanProcStep_fold_lookup (conf : List (String × ConfEntry)) (p : Proc)
    (key : String) (e : ConfEntry) (hconf : assocLookup conf key = some e) :
    ∀ (fpk : List (String × String)) (acc : List (String × ActiveEntry)),
      (∀ fk ∈ fpk, fk.2 = key → fk.1 = e.filepath) →
      assocLookup (fpk.foldl (scanProcStep conf p) acc) key =
        if fpk.any (fun fk => fk.2 = key) && strContains p.cmd e.filepath then
          some ⟨some p.pid, e.name, e.description, "running"⟩
        else assocLookup acc key := by
  intro fpk
  induction fpk with
  | nil => simp
  | cons fk tl ih =>
      intro acc huniq
      rw [List.foldl_cons, ih _ (fun x hx => huniq x (List.mem_cons_of_mem fk hx))]
      by_cases hk : fk.2 = key
      · have hfp : fk.1 = e.filepath := huniq fk (List.mem_cons_self fk tl) hk
        by_cases hm : strContains p.cmd e.filepath
        · have hstep : scanProcStep conf p acc fk =
              assocSet acc key ⟨some p.pid, e.name, e.description, "running"⟩ := by
            rw [scanProcStep, hfp, if_pos hm, hk]
            simp [runningEntry, hconf]
          rw [hstep]
          by_cases ha : tl.any (fun fk => fk.2 = key)
          · simp [List.any_cons, hk, hm, ha, assocLookup_assocSet_self]
          · simp [List.any_cons, hk, hm, ha, assocLookup_assocSet_self]
        · have hstep : scanProcStep conf p acc fk = acc := by
            rw [scanProcStep, hfp, if_neg hm]
          rw [hstep]
          simp [hm]
      · have hstep : assocLookup (scanProcStep conf p acc fk) key =
            assocLookup acc key := by
          rw [scanProcStep]
          by_cases hm : strContains p.cmd fk.1
          · rw [if_pos hm, assocLookup_assocSet_other _ hk _]
          · rw [if_neg hm]
        rw [hstep]
        simp only [List.any_cons, decide_eq_false hk, Bool.false_or]

theorem scanProcs_fold_lookup (conf : List (String × ConfEntry))
    (key : String) (e : ConfEntry) (hconf : assocLookup conf key = some e)
    (huniqP : ∀ fk ∈ filepathToKey conf, fk.2 = key → fk.1 = e.filepath)
    (hanyP : (filepathToKey conf).any (fun fk => fk.2 = key) = true) :
    ∀ (procs : List Proc) (acc : List (String × ActiveEntry)),
      assocLookup
        (procs.foldl
          (fun acc p => (filepathToKey conf).foldl (scanProcStep conf p) acc) acc)
        key =
      match procs.reverse.find? (fun p => strContains p.cmd e.filepath) with
      | some q => some ⟨some q.pid, e.name, e.description, "running"⟩
      | none => assocLookup acc key := by
  intro procs
  induction procs with
  | nil => simp
  | cons p tl ih =>
      intro acc
      rw [List.foldl_cons, ih, List.reverse_cons, local_find_append]
      cases hf : tl.reverse.find? (fun p => strContains p.cmd e.filepath) with
      | some q => rfl
      | none =>
          rw [scanProcStep_fold_lookup conf p key e hconf _ acc huniqP, hanyP]
          by_cases hm : strContains p.cmd e.filepath
          · simp [List.find?, hm]
          · simp [List.find?, hm]

theorem completion_fold_lookup (key : String) (e : ConfEntry) :
    ∀ (l : List (String × ConfEntry)) (acc : List (String × ActiveEntry)),
      (∀ ke ∈ l, ke.1 = key → ke.2 = e) →
      assocLookup (l.foldl completionStep acc) key =
        if l.any (fun ke => ke.1 = key) && (assocLookup acc key).isNone then
          some ⟨none, e.name, e.description, "not running"⟩
        else assocLookup acc key := by
  intro l
  induction l with
  | nil => simp
  | cons ke tl ih =>
      intro acc huniq
      rw [List.foldl_cons, ih _ (fun x hx => huniq x (List.mem_cons_of_mem ke hx))]
      by_cases hk : ke.1 = key
      · have he : ke.2 = e := huniq ke (List.mem_cons_self ke tl) hk
        cases hsome : assocLookup acc key with
        | some v =>
            have hstep : completionStep acc ke = acc := by
              rw [completionStep, if_pos (by rw [hk, hsome]; rfl)]
            rw [hstep]
            simp [hsome]
        | none =>
            have hstep : completionStep acc ke =
                assocSet acc key ⟨none, e.name, e.description, "not running"⟩ := by
              rw [completionStep, if_neg (by rw [hk, hsome]; simp), hk, he]
            rw [hstep]
            simp [List.any_cons, hk, hsome, assocLookup_assocSet_self]
      · have hstep : assocLookup (completionStep acc ke) key =
            assocLookup acc key := by
          rw [completionStep]
          by_cases hs : (assocLookup acc ke.1).isSome
          · rw [if_pos hs]
          · rw [if_neg hs, assocLookup_assocSet_other _ hk _]
        rw [hstep]
        simp only [List.any_cons, decide_eq_false hk, Bool.false_or]

/-- Counterexample for C9 as stated: two live processes (pids 1 then 2, in
scan order) both contain the configured filepath in their command line; the
claim promises the first match (pid 1), but the scan loop keeps overwriting,
so the entry ends up with the LAST matching pid, 2. -/
theorem process_scan_first_match_counterexample :
    get_active_processes [("A", ⟨"A", "d", "/x/server.py"⟩)]
        [⟨1, "python /x/server.py"⟩, ⟨2, "python /x/server.py"⟩] =
      [("A", ⟨some 2, "A", "d", "running"⟩)] ∧
    assocLookup
        (get_active_processes [("A", ⟨"A", "d", "/x/server.py"⟩)]
          [⟨1, "python /x/server.py"⟩, ⟨2, "python /x/server.py"⟩]) "A" ≠
      some ⟨some 1, "A", "d", "running"⟩ := by
  exact ⟨by decide, by decide⟩

/-- Claim C9 (corrected: the LAST match wins): for a configuration with
distinct keys and distinct filepaths, a configured entry is marked running
with the pid of the last process in process-table scan order whose command
line contains the configured filepath (equivalently: the first match in the
reversed table), and is marked not running with a null pid when no process
matches. -/
theorem process_scan_last_match (conf : List (String × ConfEntry))
    (procs : List Proc) (key : String) (e : ConfEntry)
    (hkeys : (conf.map Prod.fst).Nodup)
    (hfps : (conf.map (fun ke => ke.2.filepath)).Nodup)
    (hmem : (key, e) ∈ conf) :
    assocLookup (get_active_processes conf procs) key =
      match procs.reverse.find? (fun p => strContains p.cmd e.filepath) with
      | some q => some ⟨some q.pid, e.name, e.description, "running"⟩
      | none => some ⟨none, e.name, e.description, "not running"⟩ := by
  have hconf : assocLookup conf key = some e :=
    assocLookup_eq_some_of_mem hkeys hmem
  have huniqC : ∀ ke ∈ conf, ke.1 = key → ke.2 = e := by
    intro ke hke hk1
    have h1 : assocLookup conf ke.1 = some ke.2 :=
      assocLookup_eq_some_of_mem hkeys (by rw [show (ke.1, ke.2) = ke from rfl]; exact hke)
    rw [hk1, hconf] at h1
    injection h1 with h1
    exact h1.symm
  have hfpkEq := filepathToKey_eq_map conf hfps
  have huniqP : ∀ fk ∈ filepathToKey conf, fk.2 = key → fk.1 = e.filepath := by
    rw [hfpkEq]
    intro fk hfk h2
    obtain ⟨ke, hke, hrw⟩ := List.mem_map.mp hfk
    rw [← hrw] at h2 ⊢
    simp only at h2 ⊢
    rw [huniqC ke hke h2]
  have hanyP : (filepathToKey conf).any (fun fk => fk.2 = key) = true := by
    rw [hfpkEq]
    exact List.any_eq_true.mpr
      ⟨(e.filepath, key), List.mem_map.mpr ⟨(key, e), hmem, rfl⟩, by simp⟩
  have hanyC : conf.any (fun ke => ke.1 = key) = true :=
    List.any_eq_true.mpr ⟨(key, e), hmem, by simp⟩
  rw [get_active_processes, completion_fold_lookup key e conf _ huniqC, hanyC]
  rw [show scanProcs conf procs =
    procs.foldl
      (fun acc p => (filepathToKey conf).foldl (scanProcStep conf p) acc) []
    from rfl]
  rw [scanProcs_fold_lookup conf key e hconf huniqP hanyP procs []]
  cases hf : procs.reverse.find? (fun p => strContains p.cmd e.filepath) with
  | some q => simp
  | none => simp [assocLookup]

/-- Witness for C9: the two-process table from the counterexample — the
verified last-match rule names pid 2. -/
theorem process_scan_last_match_witness :
    assocLookup
        (get_active_processes [("A", ⟨"A", "d", "/x/server.py"⟩)]
          [⟨1, "python /x/server.py"⟩, ⟨2, "python /x/server.py"⟩]) "A" =
      match ([⟨1, "python /x/server.py"⟩, ⟨2, "python /x/server.py"⟩] : List Proc).reverse.find?
          (fun p => strContains p.cmd (ConfEntry.mk "A" "d" "/x/server.py").filepath) with
      | some q => some ⟨some q.pid, "A", "d", "running"⟩
      | none => some ⟨none, "A", "d", "not running"⟩ :=
  process_scan_last_match [("A", ⟨"A", "d", "/x/server.py"⟩)]
    [⟨1, "python /x/server.py"⟩, ⟨2, "python /x/server.py"⟩] "A" ⟨"A", "d", "/x/server.py"⟩
    (by decide) (by decide) (by decide)

/-! ## Claim C10: helper lemmas -/

theorem pyBindOk {ε α β : Type} (a : α) (f : α → Except ε β) :
    (Except.ok a >>= f) = f a := rfl

theorem pyBindErr {ε α β : Type} (e : ε) (f : α → Except ε β) :
    ((Except.error e : Except ε α) >>= f) = .error e := rfl

theorem pyPure {ε α : Type} (a : α) : (pure a : Except ε α) = .ok a := rfl

theorem exists_ok_of_isOkE {ε β : Type} {e : Except ε β} (h : isOkE e = true) :
    ∃ b, e = .ok b := by
  cases e with
  | ok b => exact ⟨b, rfl⟩
  | error x => simp [isOkE] at h

theorem exists_keyerr_of_isKeyErr {β : Type} {e : Except PyErr β}
    (h : isKeyErr e = true) : ∃ k, e = .error (.keyError k) := by
  cases e with
  | ok b => simp [isKeyErr] at h
  | error x =>
      cases x with
      | keyError k => exact ⟨k, rfl⟩
      | attributeError => simp [isKeyErr] at h
      | typeError => simp [isKeyErr] at h
      | indexError => simp [isKeyErr] at h

theorem foldlM_ok_of_all {β α : Type} (f : β → α → Except PyErr β) :
    ∀ (l : List α), (∀ b : β, ∀ a ∈ l, isOkE (f b a) = true) →
      ∀ init : β, isOkE (l.foldlM f init) = true := by
  intro l
  induction l with
  | nil => intro _ init; rfl
  | cons a t ih =>
      intro h init
      have ha := h init a (List.mem_cons_self a t)
      cases hf : f init a with
      | ok b =>
          rw [List.foldlM_cons, hf]
          exact ih (fun b2 x hx => h b2 x (List.mem_cons_of_mem a hx)) b
      | error e => rw [hf] at ha; simp [isOkE] at ha

theorem dump_trail_step_keyerror (todayOnly : Bool) (now : ℚ)
    (d : List (JVal × List Trail)) (trail : Trail)
    (h : assocLookup trail "project_name" = none) :
    dump_trail_step todayOnly now d trail = .error (.keyError "project_name") := by
  simp [dump_trail_step, pyGetItem, h, pyBindErr]

theorem dump_trail_step_ok_or_keyerr (todayOnly : Bool) (now : ℚ)
    (d : List (JVal × List Trail)) (trail : Trail)
    (hts : ∀ kv ∈ trail, kv.1 = "timestamp" → isOkE (asNum kv.2) = true) :
    isOkE (dump_trail_step todayOnly now d trail) = true ∨
    isKeyErr (dump_trail_step todayOnly now d trail) = true := by
  cases hpn : assocLookup trail "project_name" with
  | none => exact Or.inr (by rw [dump_trail_step_keyerror todayOnly now d trail hpn]; rfl)
  | some pn =>
      cases htd : todayOnly with
      | false =>
          left
          simp [dump_trail_step, pyGetItem, hpn, pyBindOk, pyBindErr, pyPure, isOkE]
      | true =>
          cases hl : assocLookup trail "timestamp" with
          | none =>
              right
              simp [dump_trail_step, pyGetItem, hpn, hl, pyBindOk, pyBindErr,
                pyPure, isKeyErr]
          | some v =>
              have hv := hts ("timestamp", v) (mem_of_assocLookup_eq_some hl) rfl
              obtain ⟨q, hq⟩ := exists_ok_of_isOkE hv
              left
              simp only [dump_trail_step, pyGetItem, hpn, hl, hq, pyBindOk,
                pyBindErr, pyPure]
              cases hgt : decide (now - q > 30 * 60 * 60) <;> simp [hgt, isOkE]

theorem dump_groups_foldlM_keyerr (todayOnly : Bool) (now : ℚ) :
    ∀ (trails : List Trail) (init : List (JVal × List Trail)),
      (∃ t ∈ trails, assocLookup t "project_name" = none) →
      (∀ t ∈ trails, ∀ kv ∈ t, kv.1 = "timestamp" → isOkE (asNum kv.2) = true) →
      isKeyErr (trails.foldlM (dump_trail_step todayOnly now) init) = true := by
  intro trails
  induction trails with
  | nil =>
      intro init hex _
      obtain ⟨t, ht, _⟩ := hex
      cases ht
  | cons t0 rest ih =>
      intro init hex hts
      obtain ⟨t, ht, hnone⟩ := hex
      rcases List.mem_cons.mp ht with rfl | htr
      · rw [List.foldlM_cons, dump_trail_step_keyerror todayOnly now init t hnone]
        rfl
      · rcases dump_trail_step_ok_or_keyerr todayOnly now init t0
          (hts t0 (List.mem_cons_self t0 rest)) with hok | hke
        · obtain ⟨d', hd'⟩ := exists_ok_of_isOkE hok
          rw [List.foldlM_cons, hd']
          exact ih d' ⟨t, htr, hnone⟩
            (fun x hx => hts x (List.mem_cons_of_mem t0 hx))
        · obtain ⟨k, hk⟩ := exists_keyerr_of_isKeyErr hke
          rw [List.foldlM_cons, hk]
          rfl

theorem mem_assocSet {κ α : Type} [DecidableEq κ] (l : List (κ × α)) (k : κ)
    (v : α) : ∀ pv ∈ assocSet l k v, pv ∈ l ∨ pv = (k, v) := by
  induction l with
  | nil =>
      intro pv hpv
      simp only [assocSet, List.mem_singleton] at hpv
      exact Or.inr hpv
  | cons hd tl ih =>
      intro pv hpv
      by_cases h0 : hd.1 = k
      · simp only [assocSet, if_pos h0, List.mem_cons] at hpv
        rcases hpv with h | h
        · right
          rw [h, h0]
        · exact Or.inl (List.mem_cons_of_mem hd h)
      · simp only [assocSet, if_neg h0, List.mem_cons] at hpv
        rcases hpv with h | h
        · exact Or.inl (h ▸ List.mem_cons_self hd tl)
        · rcases ih pv h with h1 | h1
          · exact Or.inl (List.mem_cons_of_mem hd h1)
          · exact Or.inr h1

theorem compact_group_values (project_filters : List String) (P : Trail → Prop) :
    ∀ (l : List Trail) (acc : List (JVal × List Trail)),
      (∀ pv ∈ acc, ∀ t ∈ pv.2, P t) → (∀ t ∈ l, P t) →
      ∀ pv ∈ l.foldl (compact_group_step project_filters) acc, ∀ t ∈ pv.2, P t := by
  intro l
  induction l with
  | nil => intro acc hacc _ pv hpv; exact hacc pv hpv
  | cons t0 rest ih =>
      intro acc hacc hl
      rw [List.foldl_cons]
      refine ih _ ?_ (fun t ht => hl t (List.mem_cons_of_mem t0 ht))
      intro pv hpv t ht
      simp only [compact_group_step] at hpv
      by_cases hf : (project_filters ≠ [] &&
        !(jvalInStrList ((assocLookup t0 "project_name").getD (JVal.s "unknown_project")) project_filters)) = true
      · rw [if_pos hf] at hpv
        exact hacc pv hpv t ht
      · rw [if_neg hf] at hpv
        rcases mem_assocSet _ _ _ pv hpv with h | h
        · exact hacc pv h t ht
        · rw [h] at ht
          simp only at ht
          rcases List.mem_append.mp ht with h2 | h2
          · cases hcur : assocLookup acc
              ((assocLookup t0 "project_name").getD (JVal.s "unknown_project")) with
            | none => rw [hcur] at h2; cases h2
            | some cur0 =>
                rw [hcur] at h2
                exact hacc _ (mem_of_assocLookup_eq_some hcur) t h2
          · rw [List.mem_singleton.mp h2]
            exact hl t0 (List.mem_cons_self t0 rest)

theorem pyKeyLe_ok_of_numeric {a b : JVal} (ha : isOkE (asNum a) = true)
    (hb : isOkE (asNum b) = true) : (pyKeyLe a b).isOk = true := by
  cases a <;> cases b <;>
    simp [asNum, isOkE, pyKeyLe, Except.isOk, Except.toBool] at *

theorem timestampKey_numeric (t : Trail)
    (hts : ∀ kv ∈ t, kv.1 = "timestamp" → isOkE (asNum kv.2) = true) :
    isOkE (asNum (timestampKey t)) = true := by
  unfold timestampKey
  cases hl : assocLookup t "timestamp" with
  | none => simp [asNum, isOkE]
  | some v =>
      simpa using hts ("timestamp", v) (mem_of_assocLookup_eq_some hl) rfl

theorem sortedByTimestamp_ok (ts : List Trail)
    (h : ∀ t ∈ ts, isOkE (asNum (timestampKey t)) = true) :
    ∃ l, sortedByTimestamp ts = .ok l ∧ ∀ t ∈ l, t ∈ ts := by
  have hall : (ts.all (fun a => ts.all (fun b =>
      (pyKeyLe (timestampKey a) (timestampKey b)).isOk))) = true := by
    rw [List.all_eq_true]
    intro a hain
    rw [List.all_eq_true]
    intro b hbin
    exact pyKeyLe_ok_of_numeric (h a hain) (h b hbin)
  refine ⟨ts.mergeSort (fun a b =>
      (pyKeyLe (timestampKey a) (timestampKey b)).toOption.getD true), ?_, ?_⟩
  · rw [sortedByTimestamp, if_pos hall]
  · intro t htm
    exact List.mem_mergeSort.mp htm

theorem renderTrail_ok (t : Trail)
    (hts : ∀ kv ∈ t, kv.1 = "timestamp" → isOkE (asNum kv.2) = true) :
    isOkE (renderTrail t) = true := by
  unfold renderTrail
  apply foldlM_ok_of_all
  intro b kv hkv
  by_cases hk : kv.1 = "timestamp"
  · obtain ⟨q, hq⟩ := exists_ok_of_isOkE (hts kv hkv hk)
    simp [renderFieldStep, hk, hq, isOkE, pyBindOk, pyBindErr, pyPure]
  · simp [renderFieldStep, hk, isOkE, pyBindOk, pyBindErr, pyPure]

theorem compact_render_step_ok (pv : JVal × List Trail)
    (h : ∀ t ∈ pv.2, ∀ kv ∈ t, kv.1 = "timestamp" → isOkE (asNum kv.2) = true) :
    ∀ acc, isOkE (compact_render_step acc pv) = true := by
  intro acc
  have hnum : ∀ t ∈ pv.2, isOkE (asNum (timestampKey t)) = true :=
    fun t ht => timestampKey_numeric t (h t ht)
  obtain ⟨l, hsort, hsub⟩ := sortedByTimestamp_ok pv.2 hnum
  have hrender : isOkE (l.foldlM (fun a t => do
      pure (a ++ (← renderTrail t))) ("" : String)) = true := by
    apply foldlM_ok_of_all
    intro b t htl
    obtain ⟨s, hs⟩ := exists_ok_of_isOkE (renderTrail_ok t (h t (hsub t htl)))
    simp [hs, isOkE, pyBindOk, pyBindErr, pyPure]
  obtain ⟨txt, htxt⟩ := exists_ok_of_isOkE hrender
  simp only [pyPure] at htxt
  simp [compact_render_step, hsort, htxt, isOkE, pyBindOk, pyBindErr, pyPure]

theorem unknown_project_mem_avail :
    ∀ (l : List Trail) (acc : List JVal),
      (JVal.s "unknown_project" ∈ acc ∨
        ∃ t ∈ l, assocLookup t "project_name" = none) →
      JVal.s "unknown_project" ∈ l.foldl availStep acc := by
  intro l
  induction l with
  | nil =>
      intro acc h
      rcases h with h | ⟨t, ht, _⟩
      · simpa using h
      · cases ht
  | cons t0 rest ih =>
      intro acc h
      rw [List.foldl_cons]
      have hmono : ∀ a : JVal, a ∈ acc → a ∈ availStep acc t0 := by
        intro a ha
        simp only [availStep]
        by_cases hc :
            ((assocLookup t0 "project_name").getD (JVal.s "unknown_project")) ∈ acc
        · rwa [if_pos hc]
        · rw [if_neg hc]
          exact List.mem_append_left _ ha
      rcases h with h | ⟨t, ht, hnone⟩
      · exact ih _ (Or.inl (hmono _ h))
      · rcases List.mem_cons.mp ht with rfl | htr
        · have hin : JVal.s "unknown_project" ∈ availStep acc t := by
            simp only [availStep, hnone, Option.getD_none]
            by_cases hc : (JVal.s "unknown_project") ∈ acc
            · rwa [if_pos hc]
            · rw [if_neg hc]
              exact List.mem_append_right _ (List.mem_singleton.mpr rfl)
          exact ih _ (Or.inl hin)
        · exact ih _ (Or.inr ⟨t, htr, hnone⟩)

/-- Claim C10 (confirmed): whenever some stored event lacks the
`project_name` key, the JSON dump (`dump_audit_trails`) raises a `KeyError`
and fails — it is total only when every event carries that key — whereas the
compact dump succeeds (given the well-typed `timestamp` values Python
demands anyway) and `available_projects` substitutes the default name
`unknown_project`; neither of those ever fails on a missing key. -/
theorem dump_requires_project_name (trails : List Trail) (todayOnly : Bool)
    (now : ℚ) (project_filters : List String) (nowStr : String)
    (h1 : ∃ t ∈ trails, assocLookup t "project_name" = none)
    (h2 : ∀ t ∈ trails, ∀ kv ∈ t, kv.1 = "timestamp" → isOkE (asNum kv.2) = true) :
    isKeyErr (dump_audit_trails_groups todayOnly now trails) = true ∧
    isOkE (dump_all_compact project_filters nowStr trails) = true ∧
    JVal.s "unknown_project" ∈ available_projects trails := by
  refine ⟨?_, ?_, ?_⟩
  · exact dump_groups_foldlM_keyerr todayOnly now trails [] h1 h2
  · unfold dump_all_compact
    apply foldlM_ok_of_all
    intro b pv hpv
    apply compact_render_step_ok
    intro t ht
    exact h2 t (compact_group_values project_filters (fun t => t ∈ trails)
      trails [] (by simp) (fun t ht2 => ht2) pv hpv t ht)
  · exact unknown_project_mem_avail trails [] (Or.inr h1)

/-- Witness for C10: a single stored event with no `project_name` key. -/
theorem dump_requires_project_name_witness :
    isKeyErr (dump_audit_trails_groups true 0 [[("event_type", JVal.s "boot")]]) = true ∧
    isOkE (dump_all_compact [] "dump-time" [[("event_type", JVal.s "boot")]]) = true ∧
    JVal.s "unknown_project" ∈ available_projects [[("event_type", JVal.s "boot")]] :=
  dump_requires_project_name [[("event_type", JVal.s "boot")]] true 0 [] "dump-time"
    (by decide) (by decide)
